import Mathlib

/-!
Shallow embedding of the MindStacks core: the record store
(StorageService), the SM-2 scheduler (SpacedRepetitionService) and the
study-session controller (appStore).  JavaScript numbers are modelled as
exact rationals; `Math.round` is `jsRound` below; non-integer numeric
literals of the source (1.3, 0.2, 0.1, 0.08, 0.02, 2.5) are written with
`mkRat` (13/10, 2/10, 1/10, 8/100, 2/100, 5/2).  Opaque string ids
produced by `generateId` (timestamp plus random suffix, specified to be
unique within one dataset) are modelled as naturals drawn from a
monotone counter `nextId` carried in the storage state.  Timestamps are
rationals passed in as a `now` argument wherever the source calls
`Date.now()`.
-/

/-- Math.round of JavaScript: round half toward positive infinity. -/
def jsRound (x : ℚ) : ℤ := ⌊x + mkRat 1 2⌋

/-- The difficulty tag of a card (types.ts). -/
inductive Difficulty
  | easy
  | medium
  | hard
deriving DecidableEq, Repr

/-- Flashcard record (types.ts). -/
structure Flashcard where
  id : Nat
  deckId : Nat
  question : String
  answer : String
  difficulty : Difficulty
  created : ℚ
  lastReview : Option ℚ := none
  nextReview : Option ℚ := none
  interval : ℚ
  easeFactor : ℚ
  repetitions : ℤ
deriving DecidableEq, Repr

/-- Deck record (types.ts). -/
structure Deck where
  id : Nat
  name : String
  description : String
  subject : String
  created : ℚ
  cardCount : ℤ
  lastStudied : Option ℚ := none
  totalReviews : ℤ
deriving DecidableEq, Repr

/-- UserStats record (types.ts). -/
structure UserStats where
  totalCards : ℤ
  totalDecks : ℤ
  totalReviews : ℤ
  correctReviews : ℤ
  lastStudied : Option ℚ := none
  streak : ℤ
deriving DecidableEq, Repr

/-- A Partial Flashcard as accepted by updateFlashcard: each field is
present (some) or absent (none); spreading merges present fields. -/
structure CardUpdate where
  id : Option Nat := none
  deckId : Option Nat := none
  question : Option String := none
  answer : Option String := none
  difficulty : Option Difficulty := none
  created : Option ℚ := none
  lastReview : Option (Option ℚ) := none
  nextReview : Option (Option ℚ) := none
  interval : Option ℚ := none
  easeFactor : Option ℚ := none
  repetitions : Option ℤ := none
deriving Repr

/-- The object spread merge of a Partial Flashcard into a Flashcard. -/
def applyCardUpdate (c : Flashcard) (u : CardUpdate) : Flashcard :=
  { id := u.id.getD c.id
    deckId := u.deckId.getD c.deckId
    question := u.question.getD c.question
    answer := u.answer.getD c.answer
    difficulty := u.difficulty.getD c.difficulty
    created := u.created.getD c.created
    lastReview := u.lastReview.getD c.lastReview
    nextReview := u.nextReview.getD c.nextReview
    interval := u.interval.getD c.interval
    easeFactor := u.easeFactor.getD c.easeFactor
    repetitions := u.repetitions.getD c.repetitions }

/-- The update carrying the whole card, as passed by recordReview. -/
def Flashcard.toUpdate (c : Flashcard) : CardUpdate :=
  { id := some c.id
    deckId := some c.deckId
    question := some c.question
    answer := some c.answer
    difficulty := some c.difficulty
    created := some c.created
    lastReview := some c.lastReview
    nextReview := some c.nextReview
    interval := some c.interval
    easeFactor := some c.easeFactor
    repetitions := some c.repetitions }

/-- A Partial Deck as accepted by updateDeck. -/
structure DeckUpdate where
  id : Option Nat := none
  name : Option String := none
  description : Option String := none
  subject : Option String := none
  created : Option ℚ := none
  cardCount : Option ℤ := none
  lastStudied : Option (Option ℚ) := none
  totalReviews : Option ℤ := none
deriving Repr

/-- The object spread merge of a Partial Deck into a Deck. -/
def applyDeckUpdate (d : Deck) (u : DeckUpdate) : Deck :=
  { id := u.id.getD d.id
    name := u.name.getD d.name
    description := u.description.getD d.description
    subject := u.subject.getD d.subject
    created := u.created.getD d.created
    cardCount := u.cardCount.getD d.cardCount
    lastStudied := u.lastStudied.getD d.lastStudied
    totalReviews := u.totalReviews.getD d.totalReviews }

/-- A Partial UserStats as accepted by updateStats. -/
structure StatsUpdate where
  totalCards : Option ℤ := none
  totalDecks : Option ℤ := none
  totalReviews : Option ℤ := none
  correctReviews : Option ℤ := none
  lastStudied : Option (Option ℚ) := none
  streak : Option ℤ := none
deriving Repr

/-- The object spread merge of a Partial UserStats. -/
def applyStatsUpdate (st : UserStats) (u : StatsUpdate) : UserStats :=
  { totalCards := u.totalCards.getD st.totalCards
    totalDecks := u.totalDecks.getD st.totalDecks
    totalReviews := u.totalReviews.getD st.totalReviews
    correctReviews := u.correctReviews.getD st.correctReviews
    lastStudied := u.lastStudied.getD st.lastStudied
    streak := u.streak.getD st.streak }

/-- The update carrying the whole stats record, as passed by
recordReview. -/
def UserStats.toUpdate (st : UserStats) : StatsUpdate :=
  { totalCards := some st.totalCards
    totalDecks := some st.totalDecks
    totalReviews := some st.totalReviews
    correctReviews := some st.correctReviews
    lastStudied := some st.lastStudied
    streak := some st.streak }

/-- The persisted state of StorageService: the three localStorage
collections plus the id counter modelling generateId. -/
structure StorageState where
  decks : List Deck
  flashcards : List Flashcard
  stats : UserStats
  nextId : Nat
deriving Repr

/-- StorageService.getDecks. -/
def getDecks (s : StorageState) : List Deck :=
  s.decks

/-- StorageService.getDeck: first deck with the given id. -/
def getDeck (s : StorageState) (deckId : Nat) : Option Deck :=
  (getDecks s).find? (fun d => d.id == deckId)

/-- StorageService.getFlashcards with the optional deckId filter. -/
def getFlashcards (s : StorageState) (deckId : Option Nat := none) : List Flashcard :=
  match deckId with
  | none => s.flashcards
  | some d => s.flashcards.filter (fun c => c.deckId == d)

/-- StorageService.getFlashcard: first card with the given id. -/
def getFlashcard (s : StorageState) (cardId : Nat) : Option Flashcard :=
  (getFlashcards s).find? (fun c => c.id == cardId)

/-- StorageService.createDeck. -/
def createDeck (s : StorageState) (name description subject : String) (now : ℚ) :
    Deck × StorageState :=
  let deck : Deck :=
    { id := s.nextId
      name := name
      description := description
      subject := subject
      created := now
      cardCount := 0
      totalReviews := 0 }
  (deck, { s with decks := s.decks ++ [deck], nextId := s.nextId + 1 })

/-- Updates the first element of the deck list whose id matches,
mirroring findIndex followed by assignment at that index; on no match
the list is returned unchanged and the result is none, mirroring the
early return of null. -/
def updateFirstDeck (deckId : Nat) (u : DeckUpdate) : List Deck → Option Deck × List Deck
  | [] => (none, [])
  | d :: ds =>
    if d.id == deckId then
      (some (applyDeckUpdate d u), applyDeckUpdate d u :: ds)
    else
      let r := updateFirstDeck deckId u ds
      (r.1, d :: r.2)

/-- StorageService.updateDeck. -/
def updateDeck (s : StorageState) (deckId : Nat) (u : DeckUpdate) :
    Option Deck × StorageState :=
  let r := updateFirstDeck deckId u s.decks
  (r.1, { s with decks := r.2 })

/-- StorageService.deleteDeck: removes the deck, then removes every
flashcard of that deck, in the same call. -/
def deleteDeck (s : StorageState) (deckId : Nat) : Bool × StorageState :=
  (true,
    { s with
      decks := s.decks.filter (fun d => d.id != deckId)
      flashcards := s.flashcards.filter (fun c => c.deckId != deckId) })

/-- StorageService.createFlashcard: pushes the new card, then increments
the cardCount of the owning deck when that deck exists. -/
def createFlashcard (s : StorageState) (deckId : Nat) (question answer : String)
    (difficulty : Difficulty) (now : ℚ) : Flashcard × StorageState :=
  let card : Flashcard :=
    { id := s.nextId
      deckId := deckId
      question := question
      answer := answer
      difficulty := difficulty
      created := now
      interval := 1
      easeFactor := mkRat 5 2
      repetitions := 0 }
  let s1 : StorageState :=
    { s with flashcards := s.flashcards ++ [card], nextId := s.nextId + 1 }
  let s2 : StorageState :=
    match getDeck s1 deckId with
    | some deck => (updateDeck s1 deckId { cardCount := some (deck.cardCount + 1) }).2
    | none => s1
  (card, s2)

/-- Updates the first element of the card list whose id matches,
mirroring findIndex followed by assignment at that index. -/
def updateFirstCard (cardId : Nat) (u : CardUpdate) : List Flashcard → Option Flashcard × List Flashcard
  | [] => (none, [])
  | c :: cs =>
    if c.id == cardId then
      (some (applyCardUpdate c u), applyCardUpdate c u :: cs)
    else
      let r := updateFirstCard cardId u cs
      (r.1, c :: r.2)

/-- StorageService.updateFlashcard. -/
def updateFlashcard (s : StorageState) (cardId : Nat) (u : CardUpdate) :
    Option Flashcard × StorageState :=
  let r := updateFirstCard cardId u s.flashcards
  (r.1, { s with flashcards := r.2 })

/-- StorageService.deleteFlashcard: looks the card up, removes every
card with that id, then decrements the cardCount of the owning deck
when positive. -/
def deleteFlashcard (s : StorageState) (cardId : Nat) : Bool × StorageState :=
  match getFlashcard s cardId with
  | none => (false, s)
  | some card =>
    let s1 : StorageState :=
      { s with flashcards := s.flashcards.filter (fun c => c.id != cardId) }
    let s2 : StorageState :=
      match getDeck s1 card.deckId with
      | some deck =>
        if 0 < deck.cardCount then
          (updateDeck s1 card.deckId { cardCount := some (deck.cardCount - 1) }).2
        else
          s1
      | none => s1
    (true, s2)

/-- StorageService.getStats: the stored record; a missing or corrupt
stats key yields the zero record, which the state carries explicitly. -/
def getStats (s : StorageState) : UserStats :=
  s.stats

/-- StorageService.updateStats. -/
def updateStats (s : StorageState) (u : StatsUpdate) : StorageState :=
  { s with stats := applyStatsUpdate (getStats s) u }

/-- The export snapshot of StorageService.exportData. -/
structure ExportData where
  decks : List Deck
  flashcards : List Flashcard
  stats : UserStats
  exportedAt : ℚ
deriving Repr

/-- The import payload of StorageService.importData: absent collections
are left untouched. -/
structure ImportData where
  decks : Option (List Deck) := none
  flashcards : Option (List Flashcard) := none
  stats : Option UserStats := none
deriving Repr

/-- StorageService.exportData. -/
def exportData (s : StorageState) (now : ℚ) : ExportData :=
  { decks := getDecks s
    flashcards := getFlashcards s
    stats := getStats s
    exportedAt := now }

/-- Feeding an export snapshot back into importData: all three
collections present, exportedAt dropped. -/
def ExportData.toImport (e : ExportData) : ImportData :=
  { decks := some e.decks
    flashcards := some e.flashcards
    stats := some e.stats }

/-- StorageService.importData: wholesale replace of each supplied
collection. -/
def importData (s : StorageState) (d : ImportData) : Bool × StorageState :=
  (true,
    { s with
      decks := d.decks.getD s.decks
      flashcards := d.flashcards.getD s.flashcards
      stats := d.stats.getD s.stats })

/-- The quality clamp of recordReview: Math.max(0, Math.min(5, q)). -/
def clampQ (quality : ℚ) : ℚ :=
  max 0 (min 5 quality)

/-- The pure card transformation inside
SpacedRepetitionService.recordReview (the body from the quality clamp to
the difficulty re-derivation); storage lookup and the stats side effect
are handled by recordReview below. -/
def recordReviewCard (card : Flashcard) (quality : ℚ) (now : ℚ) : Flashcard :=
  let q := clampQ quality
  let card1 : Flashcard :=
    if q < 3 then
      { card with
        interval := 1
        easeFactor := max (mkRat 13 10) (card.easeFactor - mkRat 2 10)
        repetitions := 0 }
    else
      let reps := card.repetitions + 1
      let newInterval : ℚ :=
        if reps = 1 then 1
        else if reps = 2 then 3
        else (jsRound (card.interval * card.easeFactor) : ℚ)
      { card with
        repetitions := reps
        interval := newInterval
        easeFactor :=
          max (mkRat 13 10)
            (card.easeFactor + mkRat 1 10 -
              (5 - q) * (mkRat 8 100 + (5 - q) * mkRat 2 100)) }
  let card2 : Flashcard :=
    { card1 with
      lastReview := some now
      nextReview := some (now + card1.interval * (24 * 60 * 60 * 1000)) }
  if q ≤ 2 then
    { card2 with difficulty := Difficulty.hard }
  else if 4 ≤ q then
    { card2 with
      difficulty := if card2.difficulty = Difficulty.easy then Difficulty.easy else Difficulty.medium }
  else
    card2

/-- SpacedRepetitionService.recordReview: storage lookup, stats side
effect, card update, persistence. -/
def recordReview (s : StorageState) (cardId : Nat) (quality : ℚ) (now : ℚ) :
    Option Flashcard × StorageState :=
  match getFlashcard s cardId with
  | none => (none, s)
  | some card =>
    let q := clampQ quality
    let stats0 := getStats s
    let stats1 : UserStats :=
      { stats0 with
        totalReviews := stats0.totalReviews + 1
        correctReviews :=
          if 3 ≤ q then stats0.correctReviews + 1 else stats0.correctReviews }
    let s1 := updateStats s stats1.toUpdate
    updateFlashcard s1 cardId (recordReviewCard card quality now).toUpdate

/-- Study mode (types.ts). -/
inductive Mode
  | learn
  | test
  | review
deriving DecidableEq, Repr

/-- StudySession record (types.ts). -/
structure StudySession where
  deckId : Nat
  cards : List Flashcard
  currentIndex : Nat
  mode : Mode
  startTime : ℚ
  score : ℤ
deriving DecidableEq, Repr

/-- startStudySession of appStore in test mode.  The random shuffle
written as sort with a random comparator produces some rearrangement of
the fetched card list; that outcome is passed in as the shuffled
argument, and the theorems quantify over every permutation of
getFlashcards for the deck.  slice(0, 30) is take 30. -/
def startStudySessionTest (deckId : Nat) (shuffled : List Flashcard) (now : ℚ) :
    StudySession :=
  { deckId := deckId
    cards := shuffled.take 30
    currentIndex := 0
    mode := Mode.test
    startTime := now
    score := 0 }

/-- moveToNextCard of appStore, acting on the optional studySession
slot: with no session nothing happens; otherwise the index is advanced
only when the incremented index is still below the card count. -/
def moveToNextCard (session : Option StudySession) : Option StudySession :=
  match session with
  | none => none
  | some s =>
    let newIndex := s.currentIndex + 1
    if newIndex < s.cards.length then
      some { s with currentIndex := newIndex }
    else
      some s

/-- endStudySession of appStore: the session slot is cleared
unconditionally. -/
def endStudySession (_ : Option StudySession) : Option StudySession :=
  none

/-- A createFlashcard or deleteFlashcard call, for sequences of card
operations against the store. -/
inductive CardOp
  | create (deckId : Nat) (question answer : String) (difficulty : Difficulty) (now : ℚ)
  | delete (cardId : Nat)

/-- Applies one card operation to the store. -/
def applyCardOp (s : StorageState) : CardOp → StorageState
  | CardOp.create dk q a df now => (createFlashcard s dk q a df now).2
  | CardOp.delete cid => (deleteFlashcard s cid).2

/-- Applies a sequence of card operations in order. -/
def applyCardOps (s : StorageState) (ops : List CardOp) : StorageState :=
  ops.foldl applyCardOp s

/-- Applies a sequence of reviews, each a quality and a timestamp, to a
card. -/
def applyReviews (card : Flashcard) (reviews : List (ℚ × ℚ)) : Flashcard :=
  reviews.foldl (fun c r => recordReviewCard c r.1 r.2) card

/-- The card scheduling invariants of the spec. -/
def CardInv (c : Flashcard) : Prop :=
  1 ≤ c.interval ∧ mkRat 13 10 ≤ c.easeFactor ∧ 0 ≤ c.repetitions

/-- The number of live cards of a deck. -/
def liveCount (s : StorageState) (deckId : Nat) : Nat :=
  (s.flashcards.filter (fun c => c.deckId == deckId)).length

/-- Well-formedness of a storage state: card ids are pairwise distinct
and every stored id is below the id counter. -/
def WFState (s : StorageState) : Prop :=
  (s.flashcards.map Flashcard.id).Nodup ∧
    (∀ c ∈ s.flashcards, c.id < s.nextId) ∧
    (∀ d ∈ s.decks, d.id < s.nextId)

/-- The count-consistency property for one deck id. -/
def countConsistent (s : StorageState) (deckId : Nat) : Prop :=
  ∃ dk, getDeck s deckId = some dk ∧ dk.cardCount = (liveCount s deckId : ℤ)

/-! ### Helper lemmas -/

lemma mkRat_num_den (n : ℤ) (d : ℕ) : mkRat n d = (n : ℚ) / d := Rat.mkRat_eq_div n d

lemma one_le_jsRound (x : ℚ) (h : mkRat 13 10 ≤ x) : (1 : ℚ) ≤ ((jsRound x : ℤ) : ℚ) := by
  have h2 : (1 : ℤ) ≤ jsRound x := by
    rw [jsRound, Int.le_floor, mkRat_num_den]
    rw [mkRat_num_den] at h
    push_cast
    push_cast at h
    linarith
  exact_mod_cast h2

lemma recordReviewCard_inv (c : Flashcard) (q now : ℚ) (h : CardInv c) :
    CardInv (recordReviewCard c q now) := by
  obtain ⟨h1, h2, h3⟩ := h
  have h13 : (0 : ℚ) < mkRat 13 10 := by rw [mkRat_num_den]; norm_num
  have hjs : (1 : ℚ) ≤ ((jsRound (c.interval * c.easeFactor) : ℤ) : ℚ) := by
    refine one_le_jsRound _ ?_
    calc mkRat 13 10 ≤ c.easeFactor := h2
      _ = 1 * c.easeFactor := (one_mul _).symm
      _ ≤ c.interval * c.easeFactor := by
          exact mul_le_mul_of_nonneg_right h1 (le_trans h13.le h2)
  have hrep : (0 : ℤ) ≤ c.repetitions + 1 := by omega
  unfold recordReviewCard CardInv
  by_cases hq : clampQ q < 3
  · simp only [hq, if_true]
    split_ifs <;> exact ⟨le_refl 1, le_max_left _ _, le_refl 0⟩
  · simp only [hq, if_false]
    split_ifs <;>
      refine ⟨?_, le_max_left _ _, hrep⟩
    all_goals try exact le_refl (1 : ℚ)
    all_goals exact hjs

lemma applyReviews_inv (reviews : List (ℚ × ℚ)) (c : Flashcard) (h : CardInv c) :
    CardInv (applyReviews c reviews) := by
  induction reviews generalizing c with
  | nil => exact h
  | cons r rs ih => exact ih _ (recordReviewCard_inv _ _ _ h)

lemma createFlashcard_card_inv (s : StorageState) (dk : Nat) (qs ans : String)
    (df : Difficulty) (now : ℚ) : CardInv (createFlashcard s dk qs ans df now).1 := by
  have h : mkRat 13 10 ≤ mkRat 5 2 := by rw [mkRat_num_den, mkRat_num_den]; norm_num
  exact ⟨le_refl 1, h, le_refl 0⟩

/-! ### Sample data for witnesses -/

/-- A concrete card used by witnesses. -/
def sampleCard : Flashcard :=
  { id := 1
    deckId := 1
    question := "q1"
    answer := "a1"
    difficulty := Difficulty.medium
    created := 0
    interval := 1
    easeFactor := mkRat 5 2
    repetitions := 0 }

/-- A second concrete card used by witnesses. -/
def sampleCardB : Flashcard :=
  { id := 2
    deckId := 1
    question := "q2"
    answer := "a2"
    difficulty := Difficulty.hard
    created := 0
    interval := 1
    easeFactor := mkRat 5 2
    repetitions := 0 }

/-- A concrete deck used by witnesses. -/
def sampleDeck : Deck :=
  { id := 0
    name := "n"
    description := "d"
    subject := "s"
    created := 0
    cardCount := 2
    totalReviews := 0 }

/-- A concrete stats record used by witnesses. -/
def sampleStats : UserStats :=
  { totalCards := 2
    totalDecks := 1
    totalReviews := 0
    correctReviews := 0
    streak := 0 }

/-- A concrete storage state used by witnesses. -/
def sampleState : StorageState :=
  { decks := [sampleDeck]
    flashcards := [sampleCard, sampleCardB]
    stats := sampleStats
    nextId := 3 }

/-- A concrete one-card session used by the C4 counterexample. -/
def oneCardSession : StudySession :=
  { deckId := 1
    cards := [sampleCard]
    currentIndex := 0
    mode := Mode.learn
    startTime := 0
    score := 0 }

/-! ### Claims -/

/-- C1: for every card and every quality value whose clamped value is
below 3, recordReview resets the interval to 1 and the repetitions to 0
and sets the ease factor to the old ease factor minus 0.2, floored at
1.3. -/
theorem claim1_failure_reset (card : Flashcard) (quality now : ℚ)
    (h : clampQ quality < 3) :
    (recordReviewCard card quality now).interval = 1 ∧
    (recordReviewCard card quality now).repetitions = 0 ∧
    (recordReviewCard card quality now).easeFactor =
      max (mkRat 13 10) (card.easeFactor - mkRat 2 10) := by
  simp only [recordReviewCard, h, if_true]
  split_ifs <;> simp

/-- C1 witness at quality 1. -/
theorem claim1_witness :
    clampQ 1 < 3 ∧
    ((recordReviewCard sampleCard 1 0).interval = 1 ∧
     (recordReviewCard sampleCard 1 0).repetitions = 0 ∧
     (recordReviewCard sampleCard 1 0).easeFactor =
       max (mkRat 13 10) (sampleCard.easeFactor - mkRat 2 10)) :=
  ⟨by decide, claim1_failure_reset sampleCard 1 0 (by decide)⟩

/-- C2: for every card and every quality value whose clamped value is at
least 3, recordReview increments the repetitions, sets the interval to 1
when the new repetitions equal 1, to 3 when they equal 2, and otherwise
to round of old interval times old ease factor, and then applies the
SM-2 ease factor update with the clamped quality, floored at 1.3. -/
theorem claim2_success_update (card : Flashcard) (quality now : ℚ)
    (h : 3 ≤ clampQ quality) :
    (recordReviewCard card quality now).repetitions = card.repetitions + 1 ∧
    (recordReviewCard card quality now).interval =
      (if card.repetitions + 1 = 1 then (1 : ℚ)
       else if card.repetitions + 1 = 2 then 3
       else (jsRound (card.interval * card.easeFactor) : ℚ)) ∧
    (recordReviewCard card quality now).easeFactor =
      max (mkRat 13 10)
        (card.easeFactor + mkRat 1 10 -
          (5 - clampQ quality) * (mkRat 8 100 + (5 - clampQ quality) * mkRat 2 100)) := by
  have h2 : ¬ clampQ quality < 3 := not_lt.mpr h
  simp only [recordReviewCard, h2, if_false]
  split_ifs <;> simp_all

/-- C2 witness at quality 4. -/
theorem claim2_witness :
    3 ≤ clampQ 4 ∧
    ((recordReviewCard sampleCard 4 0).repetitions = sampleCard.repetitions + 1 ∧
     (recordReviewCard sampleCard 4 0).interval =
       (if sampleCard.repetitions + 1 = 1 then (1 : ℚ)
        else if sampleCard.repetitions + 1 = 2 then 3
        else (jsRound (sampleCard.interval * sampleCard.easeFactor) : ℚ)) ∧
     (recordReviewCard sampleCard 4 0).easeFactor =
       max (mkRat 13 10)
         (sampleCard.easeFactor + mkRat 1 10 -
           (5 - clampQ 4) * (mkRat 8 100 + (5 - clampQ 4) * mkRat 2 100))) :=
  ⟨by decide, claim2_success_update sampleCard 4 0 (by decide)⟩

/-- C3: the invariants interval at least 1, ease factor at least 1.3 and
repetitions at least 0 are preserved by recordReview, and hold after any
sequence of reviews applied to a card freshly created by
createFlashcard. -/
theorem claim3_invariants (c : Flashcard) (q now : ℚ) (h : CardInv c)
    (s : StorageState) (dk : Nat) (qs ans : String) (df : Difficulty) (n0 : ℚ)
    (reviews : List (ℚ × ℚ)) :
    CardInv (recordReviewCard c q now) ∧
    CardInv (applyReviews (createFlashcard s dk qs ans df n0).1 reviews) :=
  ⟨recordReviewCard_inv c q now h,
   applyReviews_inv reviews _ (createFlashcard_card_inv s dk qs ans df n0)⟩

/-- C3 witness on a concrete card, state and review sequence. -/
theorem claim3_witness :
    CardInv sampleCard ∧
    (CardInv (recordReviewCard sampleCard 3 0) ∧
     CardInv (applyReviews (createFlashcard sampleState 1 "qx" "ax" Difficulty.medium 0).1
       [(5, 0), (0, 1)])) :=
  ⟨⟨by decide, by decide, by decide⟩,
   claim3_invariants sampleCard 3 0 ⟨by decide, by decide, by decide⟩ sampleState 1 "qx"
     "ax" Difficulty.medium 0 [(5, 0), (0, 1)]⟩

/-- C4 counterexample: an Active session on one card at index 0; its
index plus one equals the working-set length, and moveToNextCard does
not increment the index. -/
theorem claim4_counterexample :
    oneCardSession.currentIndex + 1 = oneCardSession.cards.length ∧
    (moveToNextCard (some oneCardSession)).map StudySession.currentIndex ≠
      some (oneCardSession.currentIndex + 1) := by decide

/-- C4 amended: moveToNextCard increments currentIndex by exactly 1 when
the incremented index is still below the working-set length and
otherwise leaves the session unchanged, so the index never reaches the
working-set length; in both cases the session stays Active until
endStudySession clears it. -/
theorem claim4_advance (sess : StudySession) :
    moveToNextCard (some sess) =
      some (if sess.currentIndex + 1 < sess.cards.length
            then { sess with currentIndex := sess.currentIndex + 1 }
            else sess) ∧
    (moveToNextCard (some sess)).isSome = true ∧
    endStudySession (some sess) = none := by
  unfold moveToNextCard endStudySession
  by_cases h : sess.currentIndex + 1 < sess.cards.length
  · simp [h]
  · simp [h]

/-- C6: after deleteDeck no card with that deckId and no deck with that
id remain, both removals applied by the same call. -/
theorem claim6_deleteDeck_cascade (s : StorageState) (d : Nat) :
    (∀ c ∈ (deleteDeck s d).2.flashcards, c.deckId ≠ d) ∧
    (∀ dk ∈ (deleteDeck s d).2.decks, dk.id ≠ d) := by
  constructor
  · intro c hc
    simp only [deleteDeck, List.mem_filter, bne_iff_ne, ne_eq] at hc
    exact hc.2
  · intro dk hdk
    simp only [deleteDeck, List.mem_filter, bne_iff_ne, ne_eq] at hdk
    exact hdk.2

/-- C7: importing the export snapshot leaves the three collections
unchanged; exportedAt is dropped by the import payload. -/
theorem claim7_roundtrip (s : StorageState) (now : ℚ) :
    (importData s (exportData s now).toImport).2.decks = s.decks ∧
    (importData s (exportData s now).toImport).2.flashcards = s.flashcards ∧
    (importData s (exportData s now).toImport).2.stats = s.stats :=
  ⟨rfl, rfl, rfl⟩

/-- C8: for every outcome of the random shuffle, a test-mode session
over a deck with pairwise distinct cards has a working set of at most
min of the deck size and 30, every element of it is a card of the deck,
and no card appears twice. -/
theorem claim8_test_mode (s : StorageState) (d : Nat) (shuffled : List Flashcard)
    (now : ℚ) (hperm : shuffled.Perm (getFlashcards s (some d)))
    (hnodup : (getFlashcards s (some d)).Nodup) :
    (startStudySessionTest d shuffled now).cards.length ≤
      min (getFlashcards s (some d)).length 30 ∧
    (∀ c ∈ (startStudySessionTest d shuffled now).cards,
      c ∈ getFlashcards s (some d) ∧ c.deckId = d) ∧
    (startStudySessionTest d shuffled now).cards.Nodup := by
  refine ⟨?_, ?_, ?_⟩
  · simp only [startStudySessionTest, List.length_take]
    rw [hperm.length_eq]
    omega
  · intro c hc
    have hmem : c ∈ shuffled := List.take_subset 30 shuffled hc
    have hmem2 : c ∈ getFlashcards s (some d) := hperm.mem_iff.mp hmem
    refine ⟨hmem2, ?_⟩
    have := hmem2
    simp only [getFlashcards, List.mem_filter, beq_iff_eq] at this
    exact this.2
  · exact ((hperm.nodup_iff).mpr hnodup).sublist (List.take_sublist 30 shuffled)

/-- C8 witness on a two-card deck with the reversed shuffle outcome. -/
theorem claim8_witness :
    ([sampleCardB, sampleCard].Perm (getFlashcards sampleState (some 1)) ∧
     (getFlashcards sampleState (some 1)).Nodup) ∧
    ((startStudySessionTest 1 [sampleCardB, sampleCard] 0).cards.length ≤
       min (getFlashcards sampleState (some 1)).length 30 ∧
     (∀ c ∈ (startStudySessionTest 1 [sampleCardB, sampleCard] 0).cards,
       c ∈ getFlashcards sampleState (some 1) ∧ c.deckId = 1) ∧
     (startStudySessionTest 1 [sampleCardB, sampleCard] 0).cards.Nodup) :=
  ⟨⟨by decide, by decide⟩,
   claim8_test_mode sampleState 1 [sampleCardB, sampleCard] 0 (by decide) (by decide)⟩

lemma updateFirstDeck_not_found (deckId : Nat) (u : DeckUpdate) (l : List Deck)
    (h : ∀ d ∈ l, d.id ≠ deckId) : updateFirstDeck deckId u l = (none, l) := by
  induction l with
  | nil => rfl
  | cons x xs ih =>
    have hx : (x.id == deckId) = false := by
      simp only [beq_eq_false_iff_ne, ne_eq]
      exact h x (List.mem_cons_self x xs)
    simp only [updateFirstDeck, hx, Bool.false_eq_true, if_false,
      ih (fun d hd => h d (List.mem_cons_of_mem x hd))]

lemma updateFirstCard_not_found (cardId : Nat) (u : CardUpdate) (l : List Flashcard)
    (h : ∀ c ∈ l, c.id ≠ cardId) : updateFirstCard cardId u l = (none, l) := by
  induction l with
  | nil => rfl
  | cons x xs ih =>
    have hx : (x.id == cardId) = false := by
      simp only [beq_eq_false_iff_ne, ne_eq]
      exact h x (List.mem_cons_self x xs)
    simp only [updateFirstCard, hx, Bool.false_eq_true, if_false,
      ih (fun c hc => h c (List.mem_cons_of_mem x hc))]

lemma getFlashcard_none (s : StorageState) (cardId : Nat)
    (h : ∀ c ∈ s.flashcards, c.id ≠ cardId) : getFlashcard s cardId = none := by
  refine List.find?_eq_none.mpr ?_
  intro c hc
  simp only [beq_eq_false_iff_ne, ne_eq, Bool.not_eq_true, beq_iff_eq]
  exact h c hc

/-- C9: updateDeck, updateFlashcard and recordReview on an unknown id
return an absent result and leave the state, in particular the deck
collection, the card collection and the stats record, unchanged. -/
theorem claim9_unknown_id (s : StorageState) (d cid : Nat) (u : DeckUpdate)
    (u2 : CardUpdate) (q now : ℚ)
    (hd : ∀ dk ∈ s.decks, dk.id ≠ d) (hc : ∀ c ∈ s.flashcards, c.id ≠ cid) :
    updateDeck s d u = (none, s) ∧
    updateFlashcard s cid u2 = (none, s) ∧
    recordReview s cid q now = (none, s) := by
  refine ⟨?_, ?_, ?_⟩
  · unfold updateDeck
    rw [updateFirstDeck_not_found d u s.decks hd]
  · unfold updateFlashcard
    rw [updateFirstCard_not_found cid u2 s.flashcards hc]
  · unfold recordReview
    rw [getFlashcard_none s cid hc]

/-- C9 witness on a concrete state with ids 1 and 2 and unknown ids 5
and 7. -/
theorem claim9_witness :
    ((∀ dk ∈ sampleState.decks, dk.id ≠ 5) ∧
     (∀ c ∈ sampleState.flashcards, c.id ≠ 7)) ∧
    (updateDeck sampleState 5 {} = (none, sampleState) ∧
     updateFlashcard sampleState 7 {} = (none, sampleState) ∧
     recordReview sampleState 7 3 0 = (none, sampleState)) :=
  ⟨⟨by decide, by decide⟩, claim9_unknown_id sampleState 5 7 {} {} 3 0 (by decide) (by decide)⟩

lemma find?_decomp {α : Type} (p : α → Bool) (l : List α) (a : α)
    (h : l.find? p = some a) :
    ∃ l1 l2, l = l1 ++ a :: l2 ∧ ∀ x ∈ l1, p x = false := by
  induction l with
  | nil => simp at h
  | cons x xs ih =>
    by_cases hx : p x = true
    · rw [List.find?_cons_of_pos _ hx] at h
      obtain rfl : x = a := by injection h
      exact ⟨[], xs, rfl, by simp⟩
    · rw [List.find?_cons_of_neg _ hx] at h
      obtain ⟨l1, l2, he, hall⟩ := ih h
      refine ⟨x :: l1, l2, by rw [he]; rfl, ?_⟩
      intro y hy
      rcases List.mem_cons.mp hy with rfl | hy2
      · exact Bool.not_eq_true _ ▸ eq_false_of_ne_true hx
      · exact hall y hy2

lemma updateFirstCard_found (cardId : Nat) (u : CardUpdate) (l1 l2 : List Flashcard)
    (c : Flashcard) (h1 : ∀ x ∈ l1, (x.id == cardId) = false)
    (hc : (c.id == cardId) = true) :
    updateFirstCard cardId u (l1 ++ c :: l2) =
      (some (applyCardUpdate c u), l1 ++ applyCardUpdate c u :: l2) := by
  induction l1 with
  | nil => simp [updateFirstCard, hc]
  | cons x xs ih =>
    have hx := h1 x (List.mem_cons_self x xs)
    simp only [List.cons_append, updateFirstCard, hx, Bool.false_eq_true, if_false,
      List.append_eq, ih (fun y hy => h1 y (List.mem_cons_of_mem x hy))]

lemma applyCardUpdate_toUpdate (c x : Flashcard) :
    applyCardUpdate c x.toUpdate = x := rfl

lemma recordReviewCard_frame (c : Flashcard) (q now : ℚ) :
    (recordReviewCard c q now).id = c.id ∧
    (recordReviewCard c q now).deckId = c.deckId ∧
    (recordReviewCard c q now).question = c.question ∧
    (recordReviewCard c q now).answer = c.answer ∧
    (recordReviewCard c q now).created = c.created := by
  simp only [recordReviewCard]
  split_ifs <;> exact ⟨rfl, rfl, rfl, rfl, rfl⟩

/-- C10: recordReview on an existing card replaces exactly the first
stored card with that id by its recordReviewCard update, leaving every
other stored card unchanged, and the updated card keeps its id, deckId,
question, answer and created fields. -/
theorem claim10_frame_effect (s : StorageState) (cid : Nat) (card : Flashcard)
    (q now : ℚ) (h : getFlashcard s cid = some card) :
    ∃ l1 l2,
      s.flashcards = l1 ++ card :: l2 ∧
      (∀ x ∈ l1, x.id ≠ cid) ∧
      (recordReview s cid q now).2.flashcards =
        l1 ++ recordReviewCard card q now :: l2 ∧
      (recordReviewCard card q now).id = card.id ∧
      (recordReviewCard card q now).deckId = card.deckId ∧
      (recordReviewCard card q now).question = card.question ∧
      (recordReviewCard card q now).answer = card.answer ∧
      (recordReviewCard card q now).created = card.created := by
  have hfind : s.flashcards.find? (fun c => c.id == cid) = some card := h
  obtain ⟨l1, l2, he, hall⟩ := find?_decomp _ _ _ hfind
  have hcard : (card.id == cid) = true := by
    simpa using List.find?_some hfind
  obtain ⟨f1, f2, f3, f4, f5⟩ := recordReviewCard_frame card q now
  refine ⟨l1, l2, he, ?_, ?_, f1, f2, f3, f4, f5⟩
  · intro x hx
    have := hall x hx
    simpa [beq_eq_false_iff_ne] using this
  · unfold recordReview
    rw [h]
    show (updateFlashcard _ cid (recordReviewCard card q now).toUpdate).2.flashcards = _
    unfold updateFlashcard
    show (updateFirstCard cid (recordReviewCard card q now).toUpdate s.flashcards).2 = _
    rw [he, updateFirstCard_found cid _ l1 l2 card
      (fun x hx => by simpa [beq_eq_false_iff_ne] using hall x hx) hcard]
    rw [applyCardUpdate_toUpdate]

/-- C10 witness at the concrete stored card with id 1. -/
theorem claim10_witness :
    getFlashcard sampleState 1 = some sampleCard ∧
    (∃ l1 l2,
      sampleState.flashcards = l1 ++ sampleCard :: l2 ∧
      (∀ x ∈ l1, x.id ≠ 1) ∧
      (recordReview sampleState 1 2 5).2.flashcards =
        l1 ++ recordReviewCard sampleCard 2 5 :: l2 ∧
      (recordReviewCard sampleCard 2 5).id = sampleCard.id ∧
      (recordReviewCard sampleCard 2 5).deckId = sampleCard.deckId ∧
      (recordReviewCard sampleCard 2 5).question = sampleCard.question ∧
      (recordReviewCard sampleCard 2 5).answer = sampleCard.answer ∧
      (recordReviewCard sampleCard 2 5).created = sampleCard.created) :=
  ⟨by decide, claim10_frame_effect sampleState 1 sampleCard 2 5 (by decide)⟩

lemma find?_cons_pos {α : Type} (p : α → Bool) (a : α) (l : List α) (h : p a = true) :
    (a :: l).find? p = some a := by
  simp [List.find?, h]

lemma find?_cons_neg {α : Type} (p : α → Bool) (a : α) (l : List α) (h : p a = false) :
    (a :: l).find? p = l.find? p := by
  simp [List.find?, h]

lemma updateFirstDeck_map_id (deckId : Nat) (u : DeckUpdate) (l : List Deck)
    (hid : u.id = none) :
    (updateFirstDeck deckId u l).2.map Deck.id = l.map Deck.id := by
  induction l with
  | nil => rfl
  | cons x xs ih =>
    by_cases hx : (x.id == deckId) = true
    · simp only [updateFirstDeck, hx, if_true, List.map_cons]
      have : (applyDeckUpdate x u).id = x.id := by simp [applyDeckUpdate, hid]
      rw [this]
    · simp only [updateFirstDeck, hx, Bool.false_eq_true, if_false, List.map_cons, ih]

lemma updateFirstDeck_find_ne (deckId d : Nat) (u : DeckUpdate) (l : List Deck)
    (hne : d ≠ deckId) (hid : u.id = none) :
    (updateFirstDeck deckId u l).2.find? (fun k => k.id == d) =
      l.find? (fun k => k.id == d) := by
  induction l with
  | nil => rfl
  | cons x xs ih =>
    by_cases hx : (x.id == deckId) = true
    · have hxdk : x.id = deckId := by simpa using hx
      have hxd : (x.id == d) = false := by
        simp only [beq_eq_false_iff_ne, ne_eq, hxdk]
        exact fun he => hne he.symm
      have hxd2 : ((applyDeckUpdate x u).id == d) = false := by
        have h2 : (applyDeckUpdate x u).id = x.id := by simp [applyDeckUpdate, hid]
        rw [h2]
        exact hxd
      simp only [updateFirstDeck, hx, if_true]
      rw [find?_cons_neg (fun k : Deck => k.id == d) _ _ hxd2, find?_cons_neg (fun k : Deck => k.id == d) _ _ hxd]
    · simp only [updateFirstDeck, hx, Bool.false_eq_true, if_false]
      by_cases hxd : (x.id == d) = true
      · rw [find?_cons_pos (fun k : Deck => k.id == d) _ _ hxd, find?_cons_pos (fun k : Deck => k.id == d) _ _ hxd]
      · have hxd2 : (x.id == d) = false := by simpa using hxd
        rw [find?_cons_neg (fun k : Deck => k.id == d) _ _ hxd2,
          find?_cons_neg (fun k : Deck => k.id == d) _ _ hxd2]
        exact ih

lemma updateFirstDeck_find_eq (deckId : Nat) (u : DeckUpdate) (l : List Deck) (dk : Deck)
    (hid : u.id = none) (hf : l.find? (fun k => k.id == deckId) = some dk) :
    (updateFirstDeck deckId u l).2.find? (fun k => k.id == deckId) =
      some (applyDeckUpdate dk u) := by
  induction l with
  | nil => simp at hf
  | cons x xs ih =>
    by_cases hx : (x.id == deckId) = true
    · rw [find?_cons_pos (fun k : Deck => k.id == deckId) _ _ hx] at hf
      obtain rfl : x = dk := by injection hf
      simp only [updateFirstDeck, hx, if_true]
      have h2 : ((applyDeckUpdate x u).id == deckId) = true := by
        have h3 : (applyDeckUpdate x u).id = x.id := by simp [applyDeckUpdate, hid]
        rw [h3]
        exact hx
      rw [find?_cons_pos (fun k : Deck => k.id == deckId) _ _ h2]
    · have hx2 : (x.id == deckId) = false := by simpa using hx
      rw [find?_cons_neg (fun k : Deck => k.id == deckId) _ _ hx2] at hf
      simp only [updateFirstDeck, hx, Bool.false_eq_true, if_false]
      rw [find?_cons_neg (fun k : Deck => k.id == deckId) _ _ hx2]
      exact ih hf

lemma forall_id_lt_of_map_eq (l lp : List Deck) (n : Nat)
    (hm : lp.map Deck.id = l.map Deck.id) (h : ∀ x ∈ l, x.id < n) :
    ∀ x ∈ lp, x.id < n := by
  intro x hx
  have h2 : x.id ∈ lp.map Deck.id := List.mem_map_of_mem Deck.id hx
  rw [hm] at h2
  obtain ⟨y, hy, he⟩ := List.mem_map.mp h2
  exact he ▸ h y hy

lemma createFlashcard_snd (s : StorageState) (dk : Nat) (qs ans : String)
    (df : Difficulty) (now : ℚ) :
    (createFlashcard s dk qs ans df now).2 =
      match getDeck s dk with
      | some deck =>
        (updateDeck
          { s with
            flashcards := s.flashcards ++ [(createFlashcard s dk qs ans df now).1]
            nextId := s.nextId + 1 }
          dk { cardCount := some (deck.cardCount + 1) }).2
      | none =>
        { s with
          flashcards := s.flashcards ++ [(createFlashcard s dk qs ans df now).1]
          nextId := s.nextId + 1 } := rfl

lemma deleteFlashcard_snd_none (s : StorageState) (cid : Nat)
    (hf : getFlashcard s cid = none) : (deleteFlashcard s cid).2 = s := by
  unfold deleteFlashcard
  rw [hf]

lemma deleteFlashcard_snd_some (s : StorageState) (cid : Nat) (card : Flashcard)
    (hf : getFlashcard s cid = some card) :
    (deleteFlashcard s cid).2 =
      match getDeck s card.deckId with
      | some deck =>
        if 0 < deck.cardCount then
          (updateDeck { s with flashcards := s.flashcards.filter (fun c => c.id != cid) }
            card.deckId { cardCount := some (deck.cardCount - 1) }).2
        else
          { s with flashcards := s.flashcards.filter (fun c => c.id != cid) }
      | none => { s with flashcards := s.flashcards.filter (fun c => c.id != cid) } := by
  unfold deleteFlashcard
  rw [hf]
  rfl

lemma filter_append_one (l : List Flashcard) (c : Flashcard) (d : Nat) :
    ((l ++ [c]).filter (fun x => x.deckId == d)).length =
      (l.filter (fun x => x.deckId == d)).length + (if c.deckId = d then 1 else 0) := by
  by_cases h : c.deckId = d
  · simp [List.filter_append, List.filter_cons, h]
  · simp [List.filter_append, List.filter_cons, h]

lemma createFlashcard_good (s : StorageState) (dk : Nat) (qs ans : String)
    (df : Difficulty) (now : ℚ) (d : Nat) (hwf : WFState s) (hcc : countConsistent s d) :
    WFState (createFlashcard s dk qs ans df now).2 ∧
    countConsistent (createFlashcard s dk qs ans df now).2 d := by
  obtain ⟨hnd, hcb, hdb⟩ := hwf
  obtain ⟨dk0, hget, hcnt⟩ := hcc
  have hget2 : s.decks.find? (fun k => k.id == d) = some dk0 := hget
  have hcardid : (createFlashcard s dk qs ans df now).1.id = s.nextId := rfl
  have hcarddk : (createFlashcard s dk qs ans df now).1.deckId = dk := rfl
  have hWF1 : WFState
      { s with
        flashcards := s.flashcards ++ [(createFlashcard s dk qs ans df now).1]
        nextId := s.nextId + 1 } := by
    refine ⟨?_, ?_, ?_⟩
    · show ((s.flashcards ++ [(createFlashcard s dk qs ans df now).1]).map Flashcard.id).Nodup
      rw [List.map_append, List.nodup_append]
      refine ⟨hnd, List.nodup_singleton _, ?_⟩
      intro a ha hb
      obtain ⟨y, hy, hye⟩ := List.mem_map.mp ha
      have hb2 : a = s.nextId := by simpa [hcardid] using hb
      have : y.id < s.nextId := hcb y hy
      rw [hye, hb2] at this
      exact lt_irrefl _ this
    · intro x hx
      rcases List.mem_append.mp hx with h1 | h2
      · exact Nat.lt_succ_of_lt (hcb x h1)
      · have hx2 : x = (createFlashcard s dk qs ans df now).1 := by simpa using h2
        rw [hx2, hcardid]
        exact Nat.lt_succ_self _
    · intro x hx
      exact Nat.lt_succ_of_lt (hdb x hx)
  rw [createFlashcard_snd]
  cases hg : getDeck s dk with
  | none =>
    refine ⟨hWF1, dk0, hget, ?_⟩
    have hne : ¬ dk = d := by
      intro he
      rw [he, hget] at hg
      exact Option.noConfusion hg
    show dk0.cardCount =
      (((s.flashcards ++ [(createFlashcard s dk qs ans df now).1]).filter
        (fun x => x.deckId == d)).length : ℤ)
    rw [filter_append_one, hcarddk, if_neg hne, Nat.add_zero]
    exact hcnt
  | some deck =>
    constructor
    · refine ⟨hWF1.1, fun x hx => hWF1.2.1 x hx, ?_⟩
      intro x hx
      exact forall_id_lt_of_map_eq s.decks _ (s.nextId + 1)
        (updateFirstDeck_map_id dk _ s.decks rfl)
        (fun y hy => Nat.lt_succ_of_lt (hdb y hy)) x hx
    · by_cases hdd : dk = d
      · subst hdd
        have hde : deck = dk0 := by
          rw [hget] at hg
          injection hg with h2
          exact h2.symm
        refine ⟨applyDeckUpdate dk0 { cardCount := some (deck.cardCount + 1) }, ?_, ?_⟩
        · show (updateFirstDeck dk { cardCount := some (deck.cardCount + 1) }
            s.decks).2.find? (fun k => k.id == dk) = _
          exact updateFirstDeck_find_eq dk _ s.decks dk0 rfl hget2
        · show deck.cardCount + 1 =
            (((s.flashcards ++ [(createFlashcard s dk qs ans df now).1]).filter
              (fun x => x.deckId == dk)).length : ℤ)
          rw [filter_append_one, hcarddk, if_pos rfl, hde, hcnt]
          unfold liveCount
          push_cast
          ring
      · have hned : d ≠ dk := fun he => hdd he.symm
        refine ⟨dk0, ?_, ?_⟩
        · show (updateFirstDeck dk { cardCount := some (deck.cardCount + 1) }
            s.decks).2.find? (fun k => k.id == d) = some dk0
          rw [updateFirstDeck_find_ne dk d _ s.decks hned rfl]
          exact hget2
        · show dk0.cardCount =
            (((s.flashcards ++ [(createFlashcard s dk qs ans df now).1]).filter
              (fun x => x.deckId == d)).length : ℤ)
          rw [filter_append_one, hcarddk, if_neg hdd, Nat.add_zero]
          exact hcnt

lemma filter_middle_one (l1 l2 : List Flashcard) (c : Flashcard) (d : Nat) :
    ((l1 ++ c :: l2).filter (fun x => x.deckId == d)).length =
      ((l1 ++ l2).filter (fun x => x.deckId == d)).length + (if c.deckId = d then 1 else 0) := by
  by_cases h : c.deckId = d
  · simp [List.filter_append, List.filter_cons, h]
    omega
  · simp [List.filter_append, List.filter_cons, h]

lemma deleteFlashcard_good (s : StorageState) (cid : Nat) (d : Nat)
    (hwf : WFState s) (hcc : countConsistent s d) :
    WFState (deleteFlashcard s cid).2 ∧ countConsistent (deleteFlashcard s cid).2 d := by
  obtain ⟨hnd, hcb, hdb⟩ := hwf
  obtain ⟨dk0, hget, hcnt⟩ := hcc
  have hget2 : s.decks.find? (fun k => k.id == d) = some dk0 := hget
  cases hf : getFlashcard s cid with
  | none =>
    rw [deleteFlashcard_snd_none s cid hf]
    exact ⟨⟨hnd, hcb, hdb⟩, dk0, hget, hcnt⟩
  | some card =>
    rw [deleteFlashcard_snd_some s cid card hf]
    have hfind : s.flashcards.find? (fun c => c.id == cid) = some card := hf
    obtain ⟨l1, l2, he, hall⟩ := find?_decomp _ _ _ hfind
    have hcid : card.id = cid := by simpa using List.find?_some hfind
    have hl2 : ∀ x ∈ l2, x.id ≠ cid := by
      intro x hx hxe
      have hnd2 := hnd
      rw [he, List.map_append, List.map_cons] at hnd2
      have h3 := (List.nodup_append.mp hnd2).2.1
      have h4 : card.id ∉ l2.map Flashcard.id := (List.nodup_cons.mp h3).1
      refine h4 ?_
      rw [hcid, ← hxe]
      exact List.mem_map_of_mem Flashcard.id hx
    have hfil : s.flashcards.filter (fun c => c.id != cid) = l1 ++ l2 := by
      rw [he, List.filter_append, List.filter_cons]
      have hcf : (card.id != cid) = false := by simp [hcid]
      rw [hcf, if_neg (by simp)]
      congr 1
      · exact List.filter_eq_self.mpr (fun x hx => by simpa using hall x hx)
      · exact List.filter_eq_self.mpr (fun x hx => by simpa using hl2 x hx)
    have hWFdel : WFState { s with flashcards := s.flashcards.filter (fun c => c.id != cid) } := by
      refine ⟨?_, ?_, hdb⟩
      · show ((s.flashcards.filter (fun c => c.id != cid)).map Flashcard.id).Nodup
        exact hnd.sublist ((List.filter_sublist _).map _)
      · intro x hx
        exact hcb x (List.mem_of_mem_filter hx)
    have hcnt2 : ¬ card.deckId = d →
        dk0.cardCount =
          (((s.flashcards.filter (fun c => c.id != cid)).filter
            (fun x => x.deckId == d)).length : ℤ) := by
      intro hdn
      rw [hfil]
      have hc2 : dk0.cardCount =
          (((l1 ++ card :: l2).filter (fun x => x.deckId == d)).length : ℤ) := by
        rw [← he]
        exact hcnt
      rw [hc2, filter_middle_one, if_neg hdn, Nat.add_zero]
    cases hgd : getDeck s card.deckId with
    | none =>
      simp only []
      have hdn : ¬ card.deckId = d := by
        intro heq
        rw [heq, hget] at hgd
        exact Option.noConfusion hgd
      exact ⟨hWFdel, dk0, hget, hcnt2 hdn⟩
    | some deck =>
      simp only []
      by_cases hdd : card.deckId = d
      · have hde : deck = dk0 := by
          rw [hdd, hget] at hgd
          injection hgd with h2
          exact h2.symm
        have hmem : card ∈ s.flashcards := by
          rw [he]
          exact List.mem_append.mpr (Or.inr (List.mem_cons_self _ _))
        have hpos0 : 0 < liveCount s d :=
          List.length_pos_of_mem (List.mem_filter.mpr ⟨hmem, by simp [hdd]⟩)
        have hpos : 0 < deck.cardCount := by
          rw [hde, hcnt]
          exact_mod_cast hpos0
        rw [if_pos hpos]
        constructor
        · refine ⟨hWFdel.1, fun x hx => hWFdel.2.1 x hx, ?_⟩
          intro x hx
          exact forall_id_lt_of_map_eq s.decks _ s.nextId
            (updateFirstDeck_map_id card.deckId _ s.decks rfl) hdb x hx
        · refine ⟨applyDeckUpdate dk0 { cardCount := some (deck.cardCount - 1) }, ?_, ?_⟩
          · show (updateFirstDeck card.deckId { cardCount := some (deck.cardCount - 1) }
              s.decks).2.find? (fun k => k.id == d) = _
            rw [hdd]
            exact updateFirstDeck_find_eq d _ s.decks dk0 rfl hget2
          · show deck.cardCount - 1 =
              (((s.flashcards.filter (fun c => c.id != cid)).filter
                (fun x => x.deckId == d)).length : ℤ)
            rw [hfil, hde, hcnt]
            have h5 : liveCount s d = ((l1 ++ l2).filter (fun x => x.deckId == d)).length + 1 := by
              unfold liveCount
              rw [he, filter_middle_one, if_pos hdd]
            rw [h5]
            push_cast
            ring
      · have hdn2 : d ≠ card.deckId := fun hh => hdd hh.symm
        split_ifs with hpos
        · constructor
          · refine ⟨hWFdel.1, fun x hx => hWFdel.2.1 x hx, ?_⟩
            intro x hx
            exact forall_id_lt_of_map_eq s.decks _ s.nextId
              (updateFirstDeck_map_id card.deckId _ s.decks rfl) hdb x hx
          · refine ⟨dk0, ?_, ?_⟩
            · show (updateFirstDeck card.deckId { cardCount := some (deck.cardCount - 1) }
                s.decks).2.find? (fun k => k.id == d) = some dk0
              rw [updateFirstDeck_find_ne card.deckId d _ s.decks hdn2 rfl]
              exact hget2
            · exact hcnt2 hdd
        · exact ⟨hWFdel, dk0, hget, hcnt2 hdd⟩

lemma applyCardOps_good (ops : List CardOp) (s : StorageState) (d : Nat)
    (h : WFState s ∧ countConsistent s d) :
    WFState (applyCardOps s ops) ∧ countConsistent (applyCardOps s ops) d := by
  induction ops generalizing s with
  | nil => exact h
  | cons op rest ih =>
    cases op with
    | create dk qs ans df now =>
      exact ih _ (createFlashcard_good s dk qs ans df now d h.1 h.2)
    | delete cid =>
      exact ih _ (deleteFlashcard_good s cid d h.1 h.2)

lemma createDeck_good (s0 : StorageState) (nm ds sj : String) (now : ℚ)
    (hwf : WFState s0) (hfresh : ∀ c ∈ s0.flashcards, c.deckId ≠ s0.nextId) :
    WFState (createDeck s0 nm ds sj now).2 ∧
    countConsistent (createDeck s0 nm ds sj now).2 (createDeck s0 nm ds sj now).1.id := by
  obtain ⟨hnd, hcb, hdb⟩ := hwf
  refine ⟨⟨hnd, fun c hc => Nat.lt_succ_of_lt (hcb c hc), ?_⟩, ?_⟩
  · intro x hx
    rcases List.mem_append.mp hx with h1 | h2
    · exact Nat.lt_succ_of_lt (hdb x h1)
    · have hx2 : x = (createDeck s0 nm ds sj now).1 := by simpa using h2
      rw [hx2]
      exact Nat.lt_succ_self _
  · refine ⟨(createDeck s0 nm ds sj now).1, ?_, ?_⟩
    · show (s0.decks ++ [(createDeck s0 nm ds sj now).1]).find?
        (fun k => k.id == s0.nextId) = some (createDeck s0 nm ds sj now).1
      rw [List.find?_append]
      have h1 : s0.decks.find? (fun k => k.id == s0.nextId) = none := by
        refine List.find?_eq_none.mpr ?_
        intro x hx
        simpa using Nat.ne_of_lt (hdb x hx)
      rw [h1, Option.none_or]
      exact find?_cons_pos _ _ _ (beq_iff_eq.mpr rfl)
    · show (0 : ℤ) =
        ((s0.flashcards.filter (fun c => c.deckId == s0.nextId)).length : ℤ)
      have h2 : s0.flashcards.filter (fun c => c.deckId == s0.nextId) = [] :=
        List.filter_eq_nil_iff.mpr (fun c hc => by simpa using hfresh c hc)
      rw [h2]
      rfl

/-- C5: for a deck freshly created by createDeck in a well-formed store
with no card referencing the id about to be minted, after any sequence
of createFlashcard and deleteFlashcard calls the deck is still stored
and its cardCount equals the number of stored cards whose deckId is the
deck id. -/
theorem claim5_count_consistency (s0 : StorageState) (nm ds sj : String) (now : ℚ)
    (ops : List CardOp) (hwf : WFState s0)
    (hfresh : ∀ c ∈ s0.flashcards, c.deckId ≠ s0.nextId) :
    countConsistent (applyCardOps (createDeck s0 nm ds sj now).2 ops)
      (createDeck s0 nm ds sj now).1.id :=
  (applyCardOps_good ops _ _ (createDeck_good s0 nm ds sj now hwf hfresh)).2

/-- C5 witness: a concrete well-formed store, a fresh deck and a
create-then-delete sequence against it. -/
theorem claim5_witness :
    (WFState sampleState ∧ (∀ c ∈ sampleState.flashcards, c.deckId ≠ sampleState.nextId)) ∧
    countConsistent
      (applyCardOps (createDeck sampleState ("n2") ("d2") ("s2") 0).2
        [CardOp.create 3 "cq" "ca" Difficulty.easy 0, CardOp.delete 4])
      (createDeck sampleState ("n2") ("d2") ("s2") 0).1.id :=
  ⟨⟨⟨by decide, by decide, by decide⟩, by decide⟩,
   claim5_count_consistency sampleState ("n2") ("d2") ("s2") 0
     [CardOp.create 3 "cq" "ca" Difficulty.easy 0, CardOp.delete 4]
     ⟨by decide, by decide, by decide⟩ (by decide)⟩
